import Mathlib

/-!
# Verification of the peewee-versioned lifecycle engine and migration propagator

Shallow embedding of `peewee_versioned.py` (the versioned-model lifecycle:
`save`, `delete_instance`, `revert`, `_create_new_version`,
`_get_current_version`, `_finalize_current_version`) and of
`peewee_versioned/migrate.py` (the schema-migration propagator).

Modelling conventions:
* A record's user-declared fields are one opaque value of a type `α`
  (`setattr` over the copied field list is the whole-value update; every model
  declared in this repository has at least one user field, so any such copy
  marks the instance dirty).
* Timestamps (`datetime.datetime.now()`) are drawn from a logical clock
  stored in the state; each draw ticks the clock.
* peewee change detection (`Model.is_dirty`) is a set of assigned field
  names: `FieldDescriptor.__set__` adds the field to `_dirty` on every
  assignment, whether or not the value changed; `Model.save` clears it.
  We model it as a `Bool` that `assign` sets unconditionally.
* The `_id` integer primary key of the nested version model is filled in by
  SQLite's rowid auto-increment at INSERT time; we model this with a
  `nextSnapId` counter, using `snap_id = 0` for a not-yet-inserted row.
* Raising an exception inside `database.atomic()` rolls the transaction
  back, so the caller observes the pre-state plus the exception; we embed
  this as an `Except` result whose `.error` case leaves no state.
-/

namespace PeeweeVersioned

/-- Errors surfaced by the lifecycle engine:
`consistency` is the `RuntimeError` raised by `_get_current_version` when
more than one snapshot with `valid_until IS NULL` exists
(`peewee_versioned.py` line 248); `versionNotFound` is the
`VersionModel.DoesNotExist` raised by the `.get()` in `revert`
(line 183) and by `Model.get` lookups in the migration helper. -/
inductive VErr where
  | consistency
  | versionNotFound
deriving Repr, DecidableEq

/-- A row of the nested `VersionModel` table (`MetaModel._version_fields`
plus the `_original_record` foreign key and the copied user fields):
`snap_id` is the `_id` integer primary key, `version_id` is `_version_id`,
`valid_from`/`valid_until`/`deleted` as declared, `original_record_id` is
the `_original_record_id` foreign-key value, `fields` the user fields. -/
structure Snapshot (α : Type) where
  snap_id : Nat
  version_id : Nat
  valid_from : Nat
  valid_until : Option Nat
  deleted : Bool
  original_record_id : Nat
  fields : α
deriving Repr, DecidableEq

/-- The observable state of one live record and its version history:
`recId` is the primary key assigned to the in-memory instance (none while
transient), `liveRow` the stored row of the live table (none when absent),
`versions` the record's rows of the version table in insertion order
(`self._versions`), `mem` the in-memory user field values, `dirty`
peewee's `_dirty` tracking, `clock` the timestamp source, `nextSnapId` and
`nextRowId` the auto-increment counters of the two tables. -/
structure RecState (α : Type) where
  recId : Option Nat
  liveRow : Option α
  versions : List (Snapshot α)
  mem : α
  dirty : Bool
  clock : Nat
  nextSnapId : Nat
  nextRowId : Nat
deriving Repr, DecidableEq

/-- A freshly constructed model instance: peewee `Model.__init__` applies
the defaults and the constructor kwargs through `setattr`, so the new
instance starts dirty and unpersisted. -/
def newRecord (v : α) : RecState α :=
  { recId := none, liveRow := none, versions := [], mem := v,
    dirty := true, clock := 0, nextSnapId := 1, nextRowId := 1 }

/-- Field assignment (`FieldDescriptor.__set__`): stores the value and adds
the field to `_dirty` unconditionally. -/
def assign (v : α) (st : RecState α) : RecState α :=
  { st with mem := v, dirty := true }

/-- peewee's plain `Model.save` on the live record: UPDATE by primary key
when the instance already has one (a no-op on the table if the row was
deleted), INSERT with a fresh rowid otherwise; `_dirty` is cleared. -/
def plainSaveLive (st : RecState α) : RecState α :=
  match st.recId with
  | some _ => { st with liveRow := st.liveRow.map (fun _ => st.mem), dirty := false }
  | none => { st with recId := some st.nextRowId, nextRowId := st.nextRowId + 1,
                      liveRow := some st.mem, dirty := false }

/-- peewee's plain `Model.save` on a fresh `VersionModel` instance: INSERT
into the version table, SQLite assigning the `_id` rowid. -/
def insertSnap (snap : Snapshot α) (st : RecState α) : Snapshot α × RecState α :=
  let s := { snap with snap_id := st.nextSnapId }
  (s, { st with versions := st.versions ++ [s], nextSnapId := st.nextSnapId + 1 })

/-- The `valid_until IS NULL` predicate of `_get_current_version`. -/
def isOpen (s : Snapshot α) : Bool := s.valid_until.isNone

/-- `VersionedModel._get_current_version` (lines 231-250): select the
record's versions with `valid_until IS NULL`; assert exactly one row and
return it; zero rows give `None`; more than one raises `RuntimeError`. -/
def _get_current_version (vs : List (Snapshot α)) : Except VErr (Option (Snapshot α)) :=
  match vs.filter isOpen with
  | [] => .ok none
  | [c] => .ok (some c)
  | _ :: _ :: _ => .error .consistency

/-- UPDATE of one version row by its `_id` primary key
(`current_version.save()` on a persisted row). -/
def closeSnapById (i : Nat) (t : Nat) (vs : List (Snapshot α)) : List (Snapshot α) :=
  vs.map (fun s => if s.snap_id = i then { s with valid_until := some t } else s)

/-- `VersionedModel._finalize_current_version` (lines 252-257): if a
current version exists, set its `valid_until` to `now` and save it. -/
def _finalize_current_version (st : RecState α) : Except VErr (RecState α) :=
  match _get_current_version st.versions with
  | .error e => .error e
  | .ok none => .ok st
  | .ok (some c) =>
      .ok { st with versions := closeSnapById c.snap_id st.clock st.versions,
                    clock := st.clock + 1 }

/-- The new `_version_id` computed in `_create_new_version` (lines 211-218):
the highest existing `_version_id` of the record
(`ORDER BY _version_id DESC LIMIT 1`) plus one, or 1 when the record has no
versions (the `IndexError` branch; the fold over `Nat` returns 0 there). -/
def nextVersionId (vs : List (Snapshot α)) : Nat :=
  (vs.map (·.version_id)).foldl Nat.max 0 + 1

/-- `VersionedModel._create_new_version` (lines 200-229): build a fresh
`VersionModel` instance with the defaults (`valid_from = now`,
`valid_until = NULL`, `deleted = False`), copy the user fields from the
parent, point `_original_record` at the parent, set the incremented
`_version_id`, and INSERT it when `save=True`. -/
def _create_new_version (doSave : Bool) (st : RecState α) : Snapshot α × RecState α :=
  let nv : Snapshot α :=
    { snap_id := 0, version_id := nextVersionId st.versions,
      valid_from := st.clock, valid_until := none, deleted := false,
      original_record_id := st.recId.getD 0, fields := st.mem }
  let st1 := { st with clock := st.clock + 1 }
  if doSave then insertSnap nv st1 else (nv, st1)

/-- `VersionedModel.save` (lines 100-116) on a live (non-version) record:
when `is_dirty()` is false, fall through to the plain save; otherwise,
inside one transaction, save the parent row, finalize the previous
version, and insert the new version. -/
def save (st : RecState α) : Except VErr (RecState α) :=
  if st.dirty = false then .ok (plainSaveLive st)
  else
    (_finalize_current_version (plainSaveLive st)).map
      (fun st2 => (_create_new_version true st2).2)

/-- `VersionedModel.delete_instance` (lines 118-135) on a live record:
inside one transaction, finalize the previous version, create an
un-saved new version, flip its `deleted` flag, insert it, and delete the
parent row. Nothing ever assigns its `valid_until`, so the tombstone is
inserted with the `valid_until = NULL` default. -/
def delete_instance (st : RecState α) : Except VErr (RecState α) :=
  (_finalize_current_version st).map (fun st1 =>
    let (nv, st2) := _create_new_version false st1
    let (_, st3) := insertSnap { nv with deleted := true } st2
    { st3 with liveRow := none })

/-- The argument accepted by `revert` (line 173): an `int`, or a
`VersionModel` instance taken as the target directly. -/
inductive RTarget (α : Type) where
  | byId (n : Int)
  | byInstance (s : Snapshot α)

/-- Target resolution in `revert` (lines 180-183): an instance is used
as-is; an integer is looked up with
`self._versions.filter(VersionModel._version_id == version).get()`, whose
`.get()` raises `DoesNotExist` when nothing matches. -/
def resolveTarget (t : RTarget α) (vs : List (Snapshot α)) : Option (Snapshot α) :=
  match t with
  | .byInstance s => some s
  | .byId n => vs.find? (fun s => (s.version_id : Int) == n)

/-- `VersionedModel.revert` (lines 168-189): resolve the target, copy every
field of `_get_fields_to_copy` (all user fields, each `setattr` marking the
instance dirty), then `save()`. -/
def revert (t : RTarget α) (st : RecState α) : Except VErr (RecState α) :=
  match resolveTarget t st.versions with
  | none => .error .versionNotFound
  | some vm => save { st with mem := vm.fields, dirty := true }

/-- The bookkeeping field names of `MetaModel._version_fields`
(lines 19-24). -/
def versionBookkeepingFields : List String :=
  ["valid_from", "valid_until", "deleted", "_original_record_id",
   "_version_id", "_id"]

/-- `VersionedModel._get_fields_to_copy` (lines 191-198): the version
model's field names minus the bookkeeping fields and `_original_record`. -/
def _get_fields_to_copy (version_model_fields : List String) : List String :=
  version_model_fields.filter
    (fun k => !(versionBookkeepingFields.contains k || k == "_original_record"))

/-- One user-visible operation on a live record. -/
inductive Op (α : Type) where
  | assign (v : α)
  | save
  | delete
  | revert (t : RTarget α)

/-- Run one operation. -/
def applyOp : Op α → RecState α → Except VErr (RecState α)
  | .assign v, st => .ok (assign v st)
  | .save, st => save st
  | .delete, st => delete_instance st
  | .revert t, st => revert t st

/-- Run a sequence of operations, stopping at the first error (the failed
operation's transaction rolls back, so no state escapes it). -/
def runOps : List (Op α) → RecState α → Except VErr (RecState α)
  | [], st => .ok st
  | op :: rest, st => (applyOp op st).bind (runOps rest)

/-- Number of snapshots of the record with `valid_until = NULL`. -/
def openCount (st : RecState α) : Nat := (st.versions.filter isOpen).length

/-- Number of closed snapshots of the record. -/
def closedCount (st : RecState α) : Nat :=
  (st.versions.filter (fun s => s.valid_until.isSome)).length

/-- The record's `_version_id`s are exactly `1, 2, ..., N` in insertion
order. -/
def contiguousIds (st : RecState α) : Prop :=
  st.versions.map (·.version_id) = List.range' 1 st.versions.length

/-- How a snapshot may relate to its pre-operation self: identical in every
column, except that a snapshot that was open may have had its
`valid_until` set (closure). -/
def sameUpToClosure (a b : Snapshot α) : Prop :=
  b.snap_id = a.snap_id ∧ b.version_id = a.version_id ∧ b.fields = a.fields ∧
  b.deleted = a.deleted ∧ b.valid_from = a.valid_from ∧
  (b.valid_until = a.valid_until ∨ (a.valid_until = none ∧ b.valid_until ≠ none))

/-! ### Concrete test fixtures (evaluated runs of the embedding) -/

/-- A record created with field value 5 and saved once. -/
def oneSavedRecord : RecState Nat :=
  (save (newRecord 5)).toOption.getD (newRecord 5)

/-- A record created with field value 0, saved, then deleted. -/
def deletedRecord : RecState Nat :=
  ((save (newRecord 0)).bind delete_instance).toOption.getD (newRecord 0)

/-- A record carried through four snapshot-creating saves: its versions are
1, 2, 3, 4 with version 4 open (the situation of
`test_versioned.py::test_revert_negative_index` before the first revert). -/
def fourVersionRecord : RecState Nat :=
  (runOps [Op.save, .assign 2, .save, .assign 3, .save, .assign 4, .save]
      (newRecord 1)).toOption.getD (newRecord 1)

/-- A demonstration operation sequence exercising save, assign, revert and
delete. -/
def demoOps : List (Op Nat) :=
  [.save, .assign 2, .save, .revert (.byId 1), .delete]

/-- A closed sample snapshot. -/
def snapClosed : Snapshot Nat :=
  { snap_id := 1, version_id := 1, valid_from := 0, valid_until := some 1,
    deleted := false, original_record_id := 1, fields := 0 }

/-- An open sample snapshot. -/
def snapOpen1 : Snapshot Nat :=
  { snap_id := 2, version_id := 2, valid_from := 1, valid_until := none,
    deleted := false, original_record_id := 1, fields := 0 }

/-- A second open sample snapshot (an inconsistent history together with
`snapOpen1`). -/
def snapOpen2 : Snapshot Nat :=
  { snap_id := 3, version_id := 3, valid_from := 2, valid_until := none,
    deleted := false, original_record_id := 1, fields := 0 }

/-- A `VersionModel` instance that has not been inserted yet (no `_id`). -/
def snapUnsaved : Snapshot Nat :=
  { snap_id := 0, version_id := 9, valid_from := 5, valid_until := none,
    deleted := false, original_record_id := 1, fields := 7 }

/-! ### The migration propagator (`peewee_versioned/migrate.py`) -/

/-- The closed set of `playhouse.migrate` operations handled by `migrate`,
carrying exactly the arguments the dispatcher reads. An `add_column`
records whether its field is a `ForeignKeyField`. -/
inductive MigOp where
  | add_index (table : String) (columns : List String)
  | drop_index (table : String) (indexName : String)
  | add_column (table : String) (column : String) (isForeignKey : Bool)
  | drop_column (table : String) (column : String)
  | rename_column (table : String) (oldName : String) (newName : String)
  | add_not_null (table : String) (column : String)
  | drop_not_null (table : String) (column : String)
  | rename_table (oldName : String) (newName : String)
deriving Repr, DecidableEq

/-- The primitive steps `migrate` issues: run the original live-table
operation (`operation.run()`), run a derived operation against the shadow
table (`version_operation.run()` or one of `_rename_table`'s explicit
`Operation(...).run()` calls), or re-link the saved snapshot references
(`_rename_table`'s final loop). -/
inductive MigAction where
  | runLive
  | runShadow (op : MigOp)
  | relinkVersions
deriving Repr, DecidableEq

/-- The nested version model's table name: the live table name plus the
`'version'` suffix (`migrate.py` lines 17-18, 99, 103, 113). -/
def versionTableName (t : String) : String := t ++ "version"

/-- Whether the introspected schema has a shadow table for `t` that
declares column `c`. `models` maps table names to their field names
(`introspector.generate_models()`). -/
def shadowHasColumn (models : List (String × List String)) (t c : String) : Bool :=
  match models.lookup (versionTableName t) with
  | none => false
  | some vfields => vfields.contains c

/-- One iteration of the loop in `migrate` (`migrate.py` lines 75-167),
returning the sequence of primitive steps it performs for one operation.
`add_index`/`drop_index` are in `NOOP_OPERATIONS`; when the shadow table is
absent no `version_operation` is built; `add_column` of a foreign key and
`drop_column`/`rename_column`/`add_not_null`/`drop_not_null` of a column
absent from the shadow schema run only the live operation; `rename_table`
delegates to `_rename_table` (drop the `_original_record_id` column, run
the live rename, rename the shadow table, re-add the foreign-key column,
re-link every saved snapshot reference). -/
def migrateOne (models : List (String × List String)) (op : MigOp) : List MigAction :=
  match op with
  | .add_index _ _ => [.runLive]
  | .drop_index _ _ => [.runLive]
  | .add_column t c fk =>
      match models.lookup (versionTableName t) with
      | none => [.runLive]
      | some _ =>
          if fk then [.runLive]
          else [.runLive, .runShadow (.add_column (versionTableName t) c false)]
  | .drop_column t c =>
      match models.lookup (versionTableName t) with
      | none => [.runLive]
      | some vfields =>
          if vfields.contains c then
            [.runLive, .runShadow (.drop_column (versionTableName t) c)]
          else [.runLive]
  | .rename_column t o n =>
      match models.lookup (versionTableName t) with
      | none => [.runLive]
      | some vfields =>
          if vfields.contains o then
            [.runLive, .runShadow (.rename_column (versionTableName t) o n)]
          else [.runLive]
  | .add_not_null t c =>
      match models.lookup (versionTableName t) with
      | none => [.runLive]
      | some vfields =>
          if vfields.contains c then
            [.runLive, .runShadow (.add_not_null (versionTableName t) c)]
          else [.runLive]
  | .drop_not_null t c =>
      match models.lookup (versionTableName t) with
      | none => [.runLive]
      | some vfields =>
          if vfields.contains c then
            [.runLive, .runShadow (.drop_not_null (versionTableName t) c)]
          else [.runLive]
  | .rename_table o n =>
      match models.lookup (versionTableName o) with
      | none => [.runLive]
      | some _ =>
          [.runShadow (.drop_column (versionTableName o) "_original_record_id"),
           .runLive,
           .runShadow (.rename_table (versionTableName o) (versionTableName n)),
           .runShadow (.add_column (versionTableName n) "_original_record_id" true),
           .relinkVersions]

/-! ### Data-level model of `_rename_table` (`migrate.py` lines 16-64) -/

/-- A row of the live table. -/
structure LiveRow (α : Type) where
  id : Nat
  fields : α
deriving Repr, DecidableEq

/-- A row of the shadow (version) table as `_rename_table` sees it: the
`_id` primary key, the `_original_record_id` foreign-key column (nullable
once re-added), and the remaining columns. -/
structure VRow (α : Type) where
  vid : Nat
  original_id : Option Nat
  fields : α
deriving Repr, DecidableEq

/-- The pair of tables `_rename_table` manipulates, identified by their
current names. -/
structure MigDB (α : Type) where
  liveName : String
  shadowName : String
  live : List (LiveRow α)
  shadow : List (VRow α)
deriving Repr, DecidableEq

/-- Dropping the `_original_record_id` column (`migrate.py` lines 32-33):
every row loses its reference value. -/
def dropOriginalColumn (sh : List (VRow α)) : List (VRow α) :=
  sh.map (fun r => { r with original_id := none })

/-- The re-linking loop (`migrate.py` lines 59-64): for each saved
`(_id, _original_record_id)` pair, look up the live row whose primary key
equals the saved reference (`NewModel.get`, raising `DoesNotExist` when it
is absent) and store its key back into the version row with that `_id`. -/
def relink (live : List (LiveRow α)) :
    List (Nat × Option Nat) → List (VRow α) → Except VErr (List (VRow α))
  | [], sh => .ok sh
  | (i, oid) :: rest, sh =>
      match oid with
      | none => .error .versionNotFound
      | some o =>
          match live.find? (fun l => l.id == o) with
          | none => .error .versionNotFound
          | some m =>
              relink live rest
                (sh.map (fun r => if r.vid = i then { r with original_id := some m.id }
                                  else r))

/-- `_rename_table` (`migrate.py` lines 16-64): save all
`(_id, _original_record_id)` pairs, drop the foreign-key column, run the
live rename, rename the shadow table to the new live name plus the
version suffix, re-add the (nullable) foreign-key column, and re-link
every saved pair. -/
def renameTableChoreo (db : MigDB α) (newName : String) : Except VErr (MigDB α) :=
  let saved := db.shadow.map (fun r => (r.vid, r.original_id))
  let db1 := { db with shadow := dropOriginalColumn db.shadow }
  let db2 := { db1 with liveName := newName }
  let db3 := { db2 with shadowName := versionTableName newName }
  (relink db3.live saved db3.shadow).map (fun sh => { db3 with shadow := sh })

/-- The introspected schema of the tables from `test_migrate.py`. -/
def foodModels : List (String × List String) :=
  [("food", ["id", "name", "is_tasty"]),
   ("foodversion", ["_id", "name", "is_tasty", "valid_from", "valid_until",
                    "deleted", "_version_id", "_original_record_id"]),
   ("menu", ["id", "name"]),
   ("menuversion", ["_id", "name", "valid_from", "valid_until", "deleted",
                    "_version_id", "_original_record_id"])]

/-- The `test_migrate.py::test_rename_table` scenario: four `food` rows,
each with one snapshot referencing it. -/
def foodDB : MigDB Nat :=
  { liveName := "food", shadowName := "foodversion",
    live := [⟨1, 1⟩, ⟨2, 2⟩, ⟨3, 3⟩, ⟨4, 4⟩],
    shadow := [⟨1, some 1, 1⟩, ⟨2, some 2, 2⟩, ⟨3, some 3, 3⟩, ⟨4, some 4, 4⟩] }

/-! ### The metaclass structure (`MetaModel.__new__`, lines 35-76) -/

/-- A class as seen through the `_VersionModel` attribute: its name and
the value of that attribute. -/
inductive MClass where
  | mk : String → Option MClass → MClass

/-- The class name. -/
def MClass.className : MClass → String
  | .mk n _ => n

/-- `VersionedModel._get_version_model` (lines 92-98): read the
`_VersionModel` attribute. -/
def MClass._get_version_model : MClass → Option MClass
  | .mk _ v => v

/-- `VersionedModel._is_version_model` (lines 82-90): true when the
`_VersionModel` attribute is `None`. -/
def MClass._is_version_model (c : MClass) : Bool :=
  c._get_version_model.isNone

/-- `MetaModel.__new__` (lines 35-76) applied to a user class: the main
branch creates the nested `*Version` class and stores it in
`_VersionModel` (line 72); the recursion-break branch masks the nested
class's own inherited `_VersionModel` attribute to `None` (line 43). -/
def mkVersionedClass (name : String) : MClass :=
  MClass.mk name (some (MClass.mk (name ++ "Version") none))

/-- peewee's plain `Model.save` as reached from a `VersionModel` instance
through the `_is_version_model` branch of `VersionedModel.save`
(lines 103-105): INSERT when the `_id` primary key is unset (0), otherwise
UPDATE the row with that `_id`. -/
def versionInstanceSave (snap : Snapshot α) (st : RecState α) : Snapshot α × RecState α :=
  if snap.snap_id = 0 then insertSnap snap st
  else
    let vs := st.versions.map (fun s => if s.snap_id = snap.snap_id then snap else s)
    (snap, { st with versions := vs })

/-- peewee's plain `Model.delete_instance` as reached from a
`VersionModel` instance through the `_is_version_model` branch of
`VersionedModel.delete_instance` (lines 120-121): DELETE by the `_id`
primary key. -/
def versionInstanceDelete (snap : Snapshot α) (st : RecState α) : RecState α :=
  { st with versions := st.versions.filter (fun s => s.snap_id != snap.snap_id) }

/-! ## Supporting lemmas -/

theorem plainSaveLive_versions (st : RecState α) :
    (plainSaveLive st).versions = st.versions := by
  unfold plainSaveLive; cases st.recId <;> rfl

theorem plainSaveLive_mem (st : RecState α) : (plainSaveLive st).mem = st.mem := by
  unfold plainSaveLive; cases st.recId <;> rfl

theorem plainSaveLive_clock (st : RecState α) : (plainSaveLive st).clock = st.clock := by
  unfold plainSaveLive; cases st.recId <;> rfl

theorem gcv_of_filter_nil {vs : List (Snapshot α)} (h : vs.filter isOpen = []) :
    _get_current_version vs = .ok none := by
  unfold _get_current_version; rw [h]

theorem gcv_of_filter_singleton {vs : List (Snapshot α)} {c : Snapshot α}
    (h : vs.filter isOpen = [c]) :
    _get_current_version vs = .ok (some c) := by
  unfold _get_current_version; rw [h]

theorem closeSnapById_filter_nil {vs : List (Snapshot α)} {c : Snapshot α} (t : Nat)
    (h : vs.filter isOpen = [c]) :
    (closeSnapById c.snap_id t vs).filter isOpen = [] := by
  rw [List.filter_eq_nil_iff]
  intro s hs
  rw [closeSnapById, List.mem_map] at hs
  obtain ⟨s0, hs0, rfl⟩ := hs
  by_cases hid : s0.snap_id = c.snap_id
  · simp [hid, isOpen]
  · rw [if_neg hid]
    intro hopen
    have hmem : s0 ∈ vs.filter isOpen := List.mem_filter.mpr ⟨hs0, hopen⟩
    rw [h, List.mem_singleton] at hmem
    exact hid (by rw [hmem])

theorem closeSnapById_map_version_id (i t : Nat) (vs : List (Snapshot α)) :
    (closeSnapById i t vs).map (·.version_id) = vs.map (·.version_id) := by
  unfold closeSnapById
  rw [List.map_map]
  apply List.map_congr_left
  intro a _
  by_cases h : a.snap_id = i <;> simp [h]

theorem closeSnapById_map_snap_id (i t : Nat) (vs : List (Snapshot α)) :
    (closeSnapById i t vs).map (·.snap_id) = vs.map (·.snap_id) := by
  unfold closeSnapById
  rw [List.map_map]
  apply List.map_congr_left
  intro a _
  by_cases h : a.snap_id = i <;> simp [h]

theorem closeSnapById_length (i t : Nat) (vs : List (Snapshot α)) :
    (closeSnapById i t vs).length = vs.length := by
  unfold closeSnapById; rw [List.length_map]

theorem nextVersionId_congr {vs ws : List (Snapshot α)}
    (h : vs.map (·.version_id) = ws.map (·.version_id)) :
    nextVersionId vs = nextVersionId ws := by
  unfold nextVersionId; rw [h]

theorem finalize_shape (st : RecState α) (h : openCount st ≤ 1) :
    ∃ st1, _finalize_current_version st = .ok st1 ∧
      st1.versions.filter isOpen = [] ∧
      st1.versions.map (·.version_id) = st.versions.map (·.version_id) ∧
      st1.versions.map (·.snap_id) = st.versions.map (·.snap_id) ∧
      st1.versions.length = st.versions.length ∧
      st1.mem = st.mem ∧ st1.recId = st.recId ∧ st1.dirty = st.dirty ∧
      st1.nextSnapId = st.nextSnapId ∧ st1.liveRow = st.liveRow ∧
      (st1.versions = st.versions ∨
        ∃ c, st.versions.filter isOpen = [c] ∧
          st1.versions = closeSnapById c.snap_id st.clock st.versions) := by
  rcases hf : st.versions.filter isOpen with _ | ⟨c, rest⟩
  · refine ⟨st, ?_, hf, rfl, rfl, rfl, rfl, rfl, rfl, rfl, rfl, Or.inl rfl⟩
    unfold _finalize_current_version
    rw [gcv_of_filter_nil hf]
  · have hrest : rest = [] := by
      rw [openCount, hf, List.length_cons] at h
      exact List.length_eq_zero.mp (by omega)
    subst hrest
    refine ⟨{ st with versions := closeSnapById c.snap_id st.clock st.versions, clock := st.clock + 1 },
            ?_, ?_, ?_, ?_, ?_, rfl, rfl, rfl, rfl, rfl, Or.inr ⟨c, rfl, rfl⟩⟩
    · unfold _finalize_current_version
      rw [gcv_of_filter_singleton hf]
    · exact closeSnapById_filter_nil _ hf
    · exact closeSnapById_map_version_id _ _ _
    · exact closeSnapById_map_snap_id _ _ _
    · exact closeSnapById_length _ _ _

theorem save_dirty_shape (st : RecState α) (hd : st.dirty = true) (h : openCount st ≤ 1) :
    ∃ st' nu pref, save st = .ok st' ∧
      st'.versions = pref ++ [nu] ∧
      pref.filter isOpen = [] ∧
      pref.map (·.version_id) = st.versions.map (·.version_id) ∧
      pref.length = st.versions.length ∧
      nu.valid_until = none ∧ nu.deleted = false ∧ nu.fields = st.mem ∧
      nu.version_id = nextVersionId st.versions ∧
      st'.mem = st.mem ∧
      (pref = st.versions ∨
        ∃ c, st.versions.filter isOpen = [c] ∧
          pref = closeSnapById c.snap_id st.clock st.versions) := by
  have hop : openCount (plainSaveLive st) ≤ 1 := by
    rw [openCount, plainSaveLive_versions]; exact h
  obtain ⟨st1, hfin, hopen1, hmapv, hmaps, hlen, hmem1, _, _, _, _, hcases⟩ :=
    finalize_shape (plainSaveLive st) hop
  rw [plainSaveLive_versions] at hmapv hlen
  rw [plainSaveLive_mem] at hmem1
  rw [plainSaveLive_versions, plainSaveLive_clock] at hcases
  have hrun : save st = .ok ((_create_new_version true st1).2) := by
    unfold save
    rw [hd]
    simp only [Bool.true_eq_false, if_false]
    rw [hfin]
    rfl
  refine ⟨(_create_new_version true st1).2, _, st1.versions, hrun, rfl, hopen1, hmapv,
          hlen, rfl, rfl, ?_, ?_, hmem1, hcases⟩
  · show st1.mem = st.mem
    exact hmem1
  · show nextVersionId st1.versions = nextVersionId st.versions
    exact nextVersionId_congr hmapv

theorem delete_shape (st : RecState α) (h : openCount st ≤ 1) :
    ∃ st' tomb pref, delete_instance st = .ok st' ∧
      st'.versions = pref ++ [tomb] ∧
      pref.filter isOpen = [] ∧
      pref.map (·.version_id) = st.versions.map (·.version_id) ∧
      pref.length = st.versions.length ∧
      tomb.valid_until = none ∧ tomb.deleted = true ∧ tomb.fields = st.mem ∧
      tomb.version_id = nextVersionId st.versions ∧
      st'.liveRow = none ∧ st'.mem = st.mem ∧
      (pref = st.versions ∨
        ∃ c, st.versions.filter isOpen = [c] ∧
          pref = closeSnapById c.snap_id st.clock st.versions) := by
  obtain ⟨st1, hfin, hopen1, hmapv, hmaps, hlen, hmem1, _, _, _, _, hcases⟩ :=
    finalize_shape st h
  have hrun : delete_instance st = .ok
      (let p := _create_new_version false st1
       let q := insertSnap { p.1 with deleted := true } p.2
       { q.2 with liveRow := none }) := by
    unfold delete_instance
    rw [hfin]
    rfl
  refine ⟨_, _, st1.versions, hrun, rfl, hopen1, hmapv, hlen, rfl, rfl, ?_, ?_, rfl,
          hmem1, hcases⟩
  · show st1.mem = st.mem
    exact hmem1
  · show nextVersionId st1.versions = nextVersionId st.versions
    exact nextVersionId_congr hmapv

theorem revert_none {t : RTarget α} {st : RecState α}
    (h : resolveTarget t st.versions = none) :
    revert t st = .error .versionNotFound := by
  unfold revert; rw [h]

theorem revert_some {t : RTarget α} {st : RecState α} {vm : Snapshot α}
    (h : resolveTarget t st.versions = some vm) :
    revert t st = save { st with mem := vm.fields, dirty := true } := by
  unfold revert; rw [h]

theorem gcv_error_of_two {vs : List (Snapshot α)} (h : 2 ≤ (vs.filter isOpen).length) :
    _get_current_version vs = .error .consistency := by
  rcases hf : vs.filter isOpen with _ | ⟨a, _ | ⟨b, l⟩⟩
  · rw [hf] at h; simp at h
  · rw [hf] at h; simp at h
  · unfold _get_current_version; rw [hf]

theorem finalize_error_of_two (st : RecState α) (h : ¬ openCount st ≤ 1) :
    _finalize_current_version st = .error .consistency := by
  unfold _finalize_current_version
  rw [gcv_error_of_two (show 2 ≤ (st.versions.filter isOpen).length by
    rw [openCount] at h; omega)]

theorem save_error_of_two (st : RecState α) (hd : st.dirty = true)
    (h : ¬ openCount st ≤ 1) : save st = .error .consistency := by
  unfold save
  rw [hd]
  simp only [Bool.true_eq_false, if_false]
  rw [finalize_error_of_two (plainSaveLive st)
    (by rw [openCount, plainSaveLive_versions]; exact h)]
  rfl

theorem delete_error_of_two (st : RecState α) (h : ¬ openCount st ≤ 1) :
    delete_instance st = .error .consistency := by
  unfold delete_instance
  rw [finalize_error_of_two st h]
  rfl

theorem openCount_append_open {pref : List (Snapshot α)} {nu : Snapshot α}
    (hp : pref.filter isOpen = []) (hnu : nu.valid_until = none) :
    ((pref ++ [nu]).filter isOpen).length = 1 := by
  rw [List.filter_append, hp]
  simp [isOpen, hnu]

theorem foldl_max_range' (n : Nat) : (List.range' 1 n).foldl Nat.max 0 = n := by
  induction n with
  | zero => rfl
  | succ k ih =>
      rw [List.range'_concat, List.foldl_append, ih]
      simp [Nat.max_def]
      omega

theorem nextVersionId_of_contiguous {vs : List (Snapshot α)}
    (h : vs.map (·.version_id) = List.range' 1 vs.length) :
    nextVersionId vs = vs.length + 1 := by
  unfold nextVersionId; rw [h, foldl_max_range']

theorem contiguous_of_shape {st st' : RecState α} {nu : Snapshot α}
    {pref : List (Snapshot α)} (hc : contiguousIds st)
    (hv : st'.versions = pref ++ [nu])
    (hmap : pref.map (·.version_id) = st.versions.map (·.version_id))
    (hlen : pref.length = st.versions.length)
    (hnu : nu.version_id = nextVersionId st.versions) :
    contiguousIds st' := by
  unfold contiguousIds at hc ⊢
  rw [hv, List.map_append, hmap, List.length_append, hlen, hc, List.map_singleton,
      hnu, nextVersionId_of_contiguous hc, List.length_singleton, List.range'_concat]
  simp [Nat.add_comm]

theorem applyOp_openCount (op : Op α) (st st' : RecState α) (h : openCount st ≤ 1)
    (hrun : applyOp op st = .ok st') : openCount st' ≤ 1 := by
  cases op with
  | assign v =>
      rw [applyOp] at hrun
      injection hrun with h1
      rw [← h1]
      exact h
  | save =>
      rw [applyOp] at hrun
      cases hd : st.dirty with
      | false =>
          unfold save at hrun
          rw [hd] at hrun
          simp only [if_true] at hrun
          injection hrun with h1
          rw [← h1, openCount, plainSaveLive_versions]
          exact h
      | true =>
          obtain ⟨s', nu, pref, hrun', hv, hopen, _, _, hnul, _, _, _, _, _⟩ :=
            save_dirty_shape st hd h
          rw [hrun'] at hrun
          injection hrun with h1
          rw [← h1, openCount, hv, openCount_append_open hopen hnul]
  | delete =>
      rw [applyOp] at hrun
      obtain ⟨s', tomb, pref, hrun', hv, hopen, _, _, hnul, _, _, _, _, _, _⟩ :=
        delete_shape st h
      rw [hrun'] at hrun
      injection hrun with h1
      rw [← h1, openCount, hv, openCount_append_open hopen hnul]
  | revert t =>
      rw [applyOp] at hrun
      cases hres : resolveTarget t st.versions with
      | none => rw [revert_none hres] at hrun; exact absurd hrun (by simp)
      | some vm =>
          rw [revert_some hres] at hrun
          have h2 : openCount { st with mem := vm.fields, dirty := true } ≤ 1 := h
          obtain ⟨s', nu, pref, hrun', hv, hopen, _, _, hnul, _, _, _, _, _⟩ :=
            save_dirty_shape { st with mem := vm.fields, dirty := true } rfl h2
          rw [hrun'] at hrun
          injection hrun with h1
          rw [← h1, openCount, hv, openCount_append_open hopen hnul]

theorem applyOp_contiguous (op : Op α) (st st' : RecState α) (hc : contiguousIds st)
    (hrun : applyOp op st = .ok st') : contiguousIds st' := by
  cases op with
  | assign v =>
      rw [applyOp] at hrun
      injection hrun with h1
      rw [← h1]
      exact hc
  | save =>
      rw [applyOp] at hrun
      cases hd : st.dirty with
      | false =>
          unfold save at hrun
          rw [hd] at hrun
          simp only [if_true] at hrun
          injection hrun with h1
          rw [← h1]
          unfold contiguousIds
          rw [plainSaveLive_versions]
          exact hc
      | true =>
          by_cases hop : openCount st ≤ 1
          · obtain ⟨s', nu, pref, hrun', hv, _, hmap, hlen, _, _, _, hvid, _, _⟩ :=
              save_dirty_shape st hd hop
            rw [hrun'] at hrun
            injection hrun with h1
            rw [← h1]
            exact contiguous_of_shape hc hv hmap hlen hvid
          · rw [save_error_of_two st hd hop] at hrun
            exact absurd hrun (by simp)
  | delete =>
      rw [applyOp] at hrun
      by_cases hop : openCount st ≤ 1
      · obtain ⟨s', tomb, pref, hrun', hv, _, hmap, hlen, _, _, _, hvid, _, _, _⟩ :=
          delete_shape st hop
        rw [hrun'] at hrun
        injection hrun with h1
        rw [← h1]
        exact contiguous_of_shape hc hv hmap hlen hvid
      · rw [delete_error_of_two st hop] at hrun
        exact absurd hrun (by simp)
  | revert t =>
      rw [applyOp] at hrun
      cases hres : resolveTarget t st.versions with
      | none => rw [revert_none hres] at hrun; exact absurd hrun (by simp)
      | some vm =>
          rw [revert_some hres] at hrun
          have hc2 : contiguousIds { st with mem := vm.fields, dirty := true } := hc
          by_cases hop : openCount { st with mem := vm.fields, dirty := true } ≤ 1
          · obtain ⟨s', nu, pref, hrun', hv, _, hmap, hlen, _, _, _, hvid, _, _⟩ :=
              save_dirty_shape { st with mem := vm.fields, dirty := true } rfl hop
            rw [hrun'] at hrun
            injection hrun with h1
            rw [← h1]
            exact contiguous_of_shape hc2 hv hmap hlen hvid
          · rw [save_error_of_two { st with mem := vm.fields, dirty := true } rfl hop]
              at hrun
            exact absurd hrun (by simp)

theorem runOps_preserves (P : RecState α → Prop)
    (hP : ∀ op st st', P st → applyOp op st = .ok st' → P st')
    (ops : List (Op α)) (st st' : RecState α) (h : P st)
    (hrun : runOps ops st = .ok st') : P st' := by
  induction ops generalizing st with
  | nil =>
      unfold runOps at hrun
      injection hrun with h1
      rw [← h1]
      exact h
  | cons op rest ih =>
      unfold runOps at hrun
      cases happ : applyOp op st with
      | error e =>
          rw [happ] at hrun
          exact absurd hrun (by simp [Except.bind])
      | ok st1 =>
          rw [happ] at hrun
          simp only [Except.bind] at hrun
          exact ih st1 (hP op st st1 h happ) hrun

theorem closed_add_open (vs : List (Snapshot α)) :
    (vs.filter (fun s => s.valid_until.isSome)).length + (vs.filter isOpen).length
      = vs.length := by
  induction vs with
  | nil => rfl
  | cons a l ih =>
      cases h2 : a.valid_until with
      | none =>
          simp [List.filter_cons, isOpen, h2]
          omega
      | some u =>
          simp [List.filter_cons, isOpen, h2]
          omega

/-! ## Claim theorems -/

/-- C1: for every live record and every completed sequence of `save()`,
`delete_instance()`, `revert()` (and field-assignment) operations, at most
one of the record's snapshots has `valid_until = NULL` at every observable
point outside an in-flight transaction: each committed operation preserves
the at-most-one-open invariant (a failing operation surfaces its error and
its transaction leaves no state behind). -/
theorem C1_at_most_one_open_snapshot (ops : List (Op α)) (st st' : RecState α)
    (h : openCount st ≤ 1) (hrun : runOps ops st = .ok st') :
    openCount st' ≤ 1 :=
  runOps_preserves (fun s => openCount s ≤ 1)
    (fun op st st' => applyOp_openCount op st st') ops st st' h hrun

theorem C1_at_most_one_open_snapshot_witness :
    openCount (newRecord (1 : Nat)) ≤ 1 ∧
    openCount ((runOps demoOps (newRecord 1)).toOption.getD (newRecord 1)) ≤ 1 :=
  ⟨by decide,
   C1_at_most_one_open_snapshot demoOps (newRecord 1) _ (by decide) (by rfl)⟩

/-- C2 counterexample: `oneSavedRecord` is a persisted record whose
in-memory field value (5) is unchanged since its last save; re-assigning
the same value and saving nevertheless creates a second snapshot, because
peewee's `is_dirty()` tracks assignments, not value changes. The claim's
"no new snapshot when values are unchanged" is therefore false. -/
theorem C2_value_unchanged_save_counterexample :
    oneSavedRecord.versions.length = 1 ∧
    oneSavedRecord.mem = 5 ∧
    (assign 5 oneSavedRecord).mem = oneSavedRecord.mem ∧
    (save (assign 5 oneSavedRecord)).map (fun s => s.versions.length) = .ok 2 :=
  ⟨rfl, rfl, rfl, rfl⟩

/-- C2 amended: `save()` on a persisted record (one open snapshot) with no
fields assigned since the last load/save (`is_dirty()` false) is a plain
row update that touches no snapshot; with any field assigned since the
last load/save — whether or not the assigned value differs — it creates
exactly one new snapshot and closes exactly one prior snapshot. -/
theorem C2_save_dirty_tracking (st : RecState α) (hOpen : openCount st = 1) :
    ∃ st', save st = .ok st' ∧
      st'.versions.length = st.versions.length + (if st.dirty then 1 else 0) ∧
      closedCount st' = closedCount st + (if st.dirty then 1 else 0) ∧
      openCount st' = 1 ∧
      (st.dirty = false → st'.versions = st.versions) := by
  cases hd : st.dirty with
  | false =>
      refine ⟨plainSaveLive st, ?_, ?_, ?_, ?_, fun _ => plainSaveLive_versions st⟩
      · unfold save; rw [hd]; simp
      · rw [plainSaveLive_versions]; simp
      · rw [closedCount, closedCount, plainSaveLive_versions]; simp
      · rw [openCount, plainSaveLive_versions]; exact hOpen
  | true =>
      obtain ⟨s', nu, pref, hrun', hv, hopen, _, hlen, hnul, _, _, _, _, _⟩ :=
        save_dirty_shape st hd (by omega)
      have hoc : openCount s' = 1 := by
        rw [openCount, hv, openCount_append_open hopen hnul]
      have e1 := closed_add_open st.versions
      have e2 := closed_add_open s'.versions
      have hlen' : s'.versions.length = st.versions.length + 1 := by
        rw [hv, List.length_append, hlen]; rfl
      refine ⟨s', hrun', ?_, ?_, hoc, fun hcontra => by simp at hcontra⟩
      · rw [hlen']; simp
      · show closedCount s' = closedCount st + 1
        have hopn : (st.versions.filter isOpen).length = 1 := hOpen
        have hopn' : (s'.versions.filter isOpen).length = 1 := hoc
        rw [closedCount, closedCount]
        omega

theorem C2_save_dirty_tracking_witness :
    openCount (assign 7 oneSavedRecord) = 1 ∧
    (∃ st', save (assign 7 oneSavedRecord) = .ok st' ∧
      st'.versions.length = (assign 7 oneSavedRecord).versions.length +
        (if (assign 7 oneSavedRecord).dirty then 1 else 0) ∧
      closedCount st' = closedCount (assign 7 oneSavedRecord) +
        (if (assign 7 oneSavedRecord).dirty then 1 else 0) ∧
      openCount st' = 1 ∧
      ((assign 7 oneSavedRecord).dirty = false →
        st'.versions = (assign 7 oneSavedRecord).versions)) :=
  ⟨by decide, C2_save_dirty_tracking (assign 7 oneSavedRecord) (by decide)⟩

/-- C3 counterexample: saving a fresh record and deleting it yields two
snapshots; the tombstone (`deleted = true`) is the last one but its
`valid_until` is still `NULL` — nothing in `delete_instance` or
`_create_new_version` ever sets it, so the tombstone is *not* pre-closed
(the repository's own `test_deleteing_instance_should_create_new_version`
asserts exactly this open tombstone). -/
theorem C3_tombstone_not_preclosed_counterexample :
    deletedRecord.versions.map (fun s => (s.deleted, s.valid_until.isSome)) =
      [(false, true), (true, false)] ∧
    deletedRecord.liveRow = none :=
  ⟨rfl, rfl⟩

/-- C3 amended: `delete_instance()` on a record with one open snapshot and
N snapshots total closes the open snapshot, inserts a tombstone snapshot
with `deleted = true` whose `valid_until` remains `NULL` (the tombstone is
the record's open snapshot), and deletes the live row, yielding N+1
snapshots with the tombstone last and version number N's successor. -/
theorem C3_delete_appends_open_tombstone (st : RecState α) (hOpen : openCount st = 1) :
    ∃ st' tomb, delete_instance st = .ok st' ∧
      st'.versions.length = st.versions.length + 1 ∧
      st'.versions.getLast? = some tomb ∧
      tomb.deleted = true ∧
      tomb.valid_until = none ∧
      tomb.fields = st.mem ∧
      tomb.version_id = nextVersionId st.versions ∧
      st'.liveRow = none ∧
      openCount st' = 1 ∧
      (∀ s ∈ st'.versions, s ≠ tomb → s.valid_until.isSome) := by
  obtain ⟨s', tomb, pref, hrun', hv, hopen, _, hlen, hnul, hdel, hfields, hvid, hlive,
          _, _⟩ := delete_shape st (by omega)
  refine ⟨s', tomb, hrun', ?_, ?_, hdel, hnul, hfields, hvid, hlive, ?_, ?_⟩
  · rw [hv, List.length_append, hlen]; rfl
  · rw [hv]; exact List.getLast?_concat _
  · rw [openCount, hv, openCount_append_open hopen hnul]
  · intro s hs hst
    rw [hv, List.mem_append] at hs
    cases hs with
    | inl hp =>
        have := List.filter_eq_nil_iff.mp hopen s hp
        cases hval : s.valid_until with
        | none => exact absurd (by simp [isOpen, hval]) this
        | some u => simp
    | inr ht =>
        rw [List.mem_singleton] at ht
        exact absurd ht hst

theorem C3_delete_appends_open_tombstone_witness :
    openCount oneSavedRecord = 1 ∧
    (∃ st' tomb, delete_instance oneSavedRecord = .ok st' ∧
      st'.versions.length = oneSavedRecord.versions.length + 1 ∧
      st'.versions.getLast? = some tomb ∧
      tomb.deleted = true ∧
      tomb.valid_until = none ∧
      tomb.fields = oneSavedRecord.mem ∧
      tomb.version_id = nextVersionId oneSavedRecord.versions ∧
      st'.liveRow = none ∧
      openCount st' = 1 ∧
      (∀ s ∈ st'.versions, s ≠ tomb → s.valid_until.isSome)) :=
  ⟨by decide, C3_delete_appends_open_tombstone oneSavedRecord (by decide)⟩

/-- C4: `revert(target)` resolves the target to a concrete snapshot,
failing with `DoesNotExist` (the embedding's `versionNotFound`) when
nothing matches; on success it copies the target's user fields onto the
live record and saves, appending exactly one new open snapshot whose
version number is the prior maximum plus one and whose fields equal the
target's; every pre-existing snapshot is unchanged except that the open
one may be closed. -/
theorem C4_revert_appends_target_fields (st : RecState α) (t : RTarget α)
    (hOpen : openCount st ≤ 1)
    (hIds : (st.versions.map (·.snap_id)).Nodup) :
    (resolveTarget t st.versions = none → revert t st = .error .versionNotFound) ∧
    ∀ vm, resolveTarget t st.versions = some vm →
      ∃ st' nu, revert t st = .ok st' ∧
        st'.versions.length = st.versions.length + 1 ∧
        st'.versions.getLast? = some nu ∧
        nu.fields = vm.fields ∧
        nu.valid_until = none ∧
        nu.version_id = nextVersionId st.versions ∧
        st'.mem = vm.fields ∧
        List.Forall₂ sameUpToClosure st.versions (st'.versions.take st.versions.length) := by
  refine ⟨fun h => revert_none h, ?_⟩
  intro vm hres
  have hOpen2 : openCount { st with mem := vm.fields, dirty := true } ≤ 1 := hOpen
  obtain ⟨s', nu, pref, hrun', hv, hopenp, hmap, hlen, hnul, _, hfields, hvid, hmem,
          hcases⟩ := save_dirty_shape { st with mem := vm.fields, dirty := true } rfl hOpen2
  have hlen2 : pref.length = st.versions.length := hlen
  refine ⟨s', nu, ?_, ?_, ?_, hfields, hnul, hvid, hmem, ?_⟩
  · rw [revert_some hres]; exact hrun'
  · rw [hv, List.length_append, hlen2]; rfl
  · rw [hv]; exact List.getLast?_concat _
  · have htake : s'.versions.take st.versions.length = pref := by
      rw [hv, ← hlen2, List.take_left]
    rw [htake]
    rcases hcases with hpref | ⟨c, hfc, hpref⟩
    · have hpref2 : pref = st.versions := hpref
      rw [hpref2]
      exact List.forall₂_same.mpr (fun x _ => ⟨rfl, rfl, rfl, rfl, rfl, Or.inl rfl⟩)
    · have hfc2 : st.versions.filter isOpen = [c] := hfc
      have hpref2 : pref = closeSnapById c.snap_id st.clock st.versions := hpref
      rw [hpref2]
      unfold closeSnapById
      rw [List.forall₂_map_right_iff, List.forall₂_same]
      intro x hx
      by_cases hid : x.snap_id = c.snap_id
      · have hcmem : c ∈ st.versions.filter isOpen := by
          rw [hfc2]; exact List.mem_singleton_self c
        have hxc : x = c :=
          List.inj_on_of_nodup_map hIds hx (List.mem_filter.mp hcmem).1 hid
        have hxopen : x.valid_until = none := by
          rw [hxc]
          exact Option.isNone_iff_eq_none.mp (List.mem_filter.mp hcmem).2
        rw [if_pos hid]
        exact ⟨rfl, rfl, rfl, rfl, rfl, Or.inr ⟨hxopen, by simp⟩⟩
      · rw [if_neg hid]
        exact ⟨rfl, rfl, rfl, rfl, rfl, Or.inl rfl⟩

theorem C4_revert_appends_target_fields_witness :
    ∃ st' nu, revert (RTarget.byId 2) fourVersionRecord = .ok st' ∧
      st'.versions.length = fourVersionRecord.versions.length + 1 ∧
      st'.versions.getLast? = some nu ∧
      nu.fields = 2 ∧
      nu.valid_until = none ∧
      nu.version_id = nextVersionId fourVersionRecord.versions ∧
      st'.mem = 2 ∧
      List.Forall₂ sameUpToClosure fourVersionRecord.versions
        (st'.versions.take fourVersionRecord.versions.length) :=
  (C4_revert_appends_target_fields fourVersionRecord (RTarget.byId 2)
      (by decide) (by decide)).2
    { snap_id := 2, version_id := 2, valid_from := 2, valid_until := some 3,
      deleted := false, original_record_id := 1, fields := 2 } (by rfl)

/-- C5: the code of `revert` treats every integer target as an absolute
`_version_id` lookup (`filter(VersionModel._version_id == version).get()`),
so on a record with versions 1..4 (version 4 open) the relative offsets
`-1` and `-3` match no snapshot and raise `DoesNotExist` instead of
resolving to versions 3 and 1 as the spec and the repository's own
`test_revert_negative_index` expect. -/
theorem C5_negative_offsets_not_resolved :
    fourVersionRecord.versions.map (·.version_id) = [1, 2, 3, 4] ∧
    (fourVersionRecord.versions.filter isOpen).map (·.version_id) = [4] ∧
    revert (RTarget.byId (-1)) fourVersionRecord = .error .versionNotFound ∧
    revert (RTarget.byId (-3)) fourVersionRecord = .error .versionNotFound :=
  ⟨rfl, rfl, rfl, rfl⟩

/-- C6: starting from a record whose snapshot version numbers are exactly
`1..N` in insertion order (in particular a fresh record), every completed
operation sequence keeps them a contiguous ascending sequence starting at
1, and the next version number handed out by `_create_new_version` is
always one more than the highest existing one (1 when none exist). -/
theorem C6_version_ids_contiguous (ops : List (Op α)) (st st' : RecState α)
    (hc : contiguousIds st) (hrun : runOps ops st = .ok st') :
    contiguousIds st' ∧ nextVersionId st'.versions = st'.versions.length + 1 := by
  have hc' : contiguousIds st' :=
    runOps_preserves contiguousIds (fun op st st' => applyOp_contiguous op st st')
      ops st st' hc hrun
  exact ⟨hc', nextVersionId_of_contiguous hc'⟩

theorem C6_version_ids_contiguous_witness :
    contiguousIds (newRecord (1 : Nat)) ∧
    (contiguousIds ((runOps demoOps (newRecord 1)).toOption.getD (newRecord 1)) ∧
      nextVersionId ((runOps demoOps (newRecord 1)).toOption.getD (newRecord 1)).versions
        = ((runOps demoOps (newRecord 1)).toOption.getD (newRecord 1)).versions.length + 1) :=
  ⟨by rfl, C6_version_ids_contiguous demoOps (newRecord 1) _ (by rfl) (by rfl)⟩

/-- C7: `_get_current_version` returns the unique open snapshot when the
`valid_until IS NULL` query yields exactly one row, `None` when it yields
none, and raises the consistency `RuntimeError` (never resolving
silently) when it yields more than one. -/
theorem C7_get_current_version_trichotomy (vs : List (Snapshot α)) :
    (vs.filter isOpen = [] → _get_current_version vs = .ok none) ∧
    (∀ c, vs.filter isOpen = [c] →
      _get_current_version vs = .ok (some c) ∧ c ∈ vs ∧ c.valid_until = none) ∧
    (2 ≤ (vs.filter isOpen).length → _get_current_version vs = .error .consistency) := by
  refine ⟨fun h => gcv_of_filter_nil h, ?_, fun h => gcv_error_of_two h⟩
  intro c hc
  have hmem : c ∈ vs.filter isOpen := by rw [hc]; exact List.mem_singleton_self c
  exact ⟨gcv_of_filter_singleton hc, (List.mem_filter.mp hmem).1,
    Option.isNone_iff_eq_none.mp (List.mem_filter.mp hmem).2⟩

theorem C7_get_current_version_trichotomy_witness :
    _get_current_version [snapClosed] = .ok none ∧
    (_get_current_version [snapClosed, snapOpen1] = .ok (some snapOpen1) ∧
      snapOpen1 ∈ [snapClosed, snapOpen1] ∧ snapOpen1.valid_until = none) ∧
    _get_current_version [snapOpen1, snapOpen2] = .error .consistency :=
  ⟨(C7_get_current_version_trichotomy [snapClosed]).1 (by rfl),
   (C7_get_current_version_trichotomy [snapClosed, snapOpen1]).2.1 snapOpen1 (by rfl),
   (C7_get_current_version_trichotomy [snapOpen1, snapOpen2]).2.2 (by decide)⟩

/-- C8: for every operation processed by `migrate`: `add_index` and
`drop_index` produce no shadow action; an `add_column` whose field is a
foreign key produces no shadow action; `drop_column`, `rename_column`,
`add_not_null` and `drop_not_null` are mirrored onto the shadow table
exactly when the named column exists in the shadow schema; and in every
case the original live-table operation still runs. -/
theorem C8_migrate_decision_table (models : List (String × List String)) :
    (∀ t cols, migrateOne models (.add_index t cols) = [.runLive]) ∧
    (∀ t i, migrateOne models (.drop_index t i) = [.runLive]) ∧
    (∀ t c, migrateOne models (.add_column t c true) = [.runLive]) ∧
    (∀ t c,
      (shadowHasColumn models t c = true →
        migrateOne models (.drop_column t c)
          = [.runLive, .runShadow (.drop_column (versionTableName t) c)]) ∧
      (shadowHasColumn models t c = false →
        migrateOne models (.drop_column t c) = [.runLive])) ∧
    (∀ t o n,
      (shadowHasColumn models t o = true →
        migrateOne models (.rename_column t o n)
          = [.runLive, .runShadow (.rename_column (versionTableName t) o n)]) ∧
      (shadowHasColumn models t o = false →
        migrateOne models (.rename_column t o n) = [.runLive])) ∧
    (∀ t c,
      (shadowHasColumn models t c = true →
        migrateOne models (.add_not_null t c)
          = [.runLive, .runShadow (.add_not_null (versionTableName t) c)]) ∧
      (shadowHasColumn models t c = false →
        migrateOne models (.add_not_null t c) = [.runLive])) ∧
    (∀ t c,
      (shadowHasColumn models t c = true →
        migrateOne models (.drop_not_null t c)
          = [.runLive, .runShadow (.drop_not_null (versionTableName t) c)]) ∧
      (shadowHasColumn models t c = false →
        migrateOne models (.drop_not_null t c) = [.runLive])) ∧
    (∀ op, MigAction.runLive ∈ migrateOne models op) := by
  refine ⟨fun t cols => rfl, fun t i => rfl, ?_, ?_, ?_, ?_, ?_, ?_⟩
  · intro t c
    cases hl : models.lookup (versionTableName t) with
    | none => simp [migrateOne, hl]
    | some fs => simp [migrateOne, hl]
  · intro t c
    refine ⟨?_, ?_⟩ <;> intro h
    · cases hl : models.lookup (versionTableName t) with
      | none =>
          simp only [shadowHasColumn, hl] at h
          exact Bool.noConfusion h
      | some fs =>
          simp only [shadowHasColumn, hl] at h
          simp only [migrateOne, hl]
          rw [if_pos h]
    · cases hl : models.lookup (versionTableName t) with
      | none => simp [migrateOne, hl]
      | some fs =>
          simp only [shadowHasColumn, hl] at h
          simp only [migrateOne, hl]
          rw [if_neg (by simpa using h)]
  · intro t o n
    refine ⟨?_, ?_⟩ <;> intro h
    · cases hl : models.lookup (versionTableName t) with
      | none =>
          simp only [shadowHasColumn, hl] at h
          exact Bool.noConfusion h
      | some fs =>
          simp only [shadowHasColumn, hl] at h
          simp only [migrateOne, hl]
          rw [if_pos h]
    · cases hl : models.lookup (versionTableName t) with
      | none => simp [migrateOne, hl]
      | some fs =>
          simp only [shadowHasColumn, hl] at h
          simp only [migrateOne, hl]
          rw [if_neg (by simpa using h)]
  · intro t c
    refine ⟨?_, ?_⟩ <;> intro h
    · cases hl : models.lookup (versionTableName t) with
      | none =>
          simp only [shadowHasColumn, hl] at h
          exact Bool.noConfusion h
      | some fs =>
          simp only [shadowHasColumn, hl] at h
          simp only [migrateOne, hl]
          rw [if_pos h]
    · cases hl : models.lookup (versionTableName t) with
      | none => simp [migrateOne, hl]
      | some fs =>
          simp only [shadowHasColumn, hl] at h
          simp only [migrateOne, hl]
          rw [if_neg (by simpa using h)]
  · intro t c
    refine ⟨?_, ?_⟩ <;> intro h
    · cases hl : models.lookup (versionTableName t) with
      | none =>
          simp only [shadowHasColumn, hl] at h
          exact Bool.noConfusion h
      | some fs =>
          simp only [shadowHasColumn, hl] at h
          simp only [migrateOne, hl]
          rw [if_pos h]
    · cases hl : models.lookup (versionTableName t) with
      | none => simp [migrateOne, hl]
      | some fs =>
          simp only [shadowHasColumn, hl] at h
          simp only [migrateOne, hl]
          rw [if_neg (by simpa using h)]
  · intro op
    cases op with
    | add_index t cols => simp [migrateOne]
    | drop_index t i => simp [migrateOne]
    | add_column t c fk =>
        cases hl : models.lookup (versionTableName t) with
        | none => simp [migrateOne, hl]
        | some fs => cases fk <;> simp [migrateOne, hl]
    | drop_column t c =>
        cases hl : models.lookup (versionTableName t) with
        | none => simp [migrateOne, hl]
        | some fs =>
            simp only [migrateOne, hl]
            split <;> simp
    | rename_column t o n =>
        cases hl : models.lookup (versionTableName t) with
        | none => simp [migrateOne, hl]
        | some fs =>
            simp only [migrateOne, hl]
            split <;> simp
    | add_not_null t c =>
        cases hl : models.lookup (versionTableName t) with
        | none => simp [migrateOne, hl]
        | some fs =>
            simp only [migrateOne, hl]
            split <;> simp
    | drop_not_null t c =>
        cases hl : models.lookup (versionTableName t) with
        | none => simp [migrateOne, hl]
        | some fs =>
            simp only [migrateOne, hl]
            split <;> simp
    | rename_table o n =>
        cases hl : models.lookup (versionTableName o) with
        | none => simp [migrateOne, hl]
        | some fs => simp [migrateOne, hl]

theorem C8_migrate_decision_table_witness :
    migrateOne foodModels (.add_index "food" ["name"]) = [.runLive] ∧
    migrateOne foodModels (.add_column "food" "another_column" true) = [.runLive] ∧
    migrateOne foodModels (.drop_column "food" "is_tasty")
      = [.runLive, .runShadow (.drop_column (versionTableName "food") "is_tasty")] ∧
    migrateOne foodModels (.add_not_null "food" "another_column") = [.runLive] :=
  ⟨(C8_migrate_decision_table foodModels).1 "food" ["name"],
   (C8_migrate_decision_table foodModels).2.2.1 "food" "another_column",
   ((C8_migrate_decision_table foodModels).2.2.2.1 "food" "is_tasty").1 (by rfl),
   ((C8_migrate_decision_table foodModels).2.2.2.2.2.1 "food" "another_column").2
     (by rfl)⟩

theorem map_id_of_mem {β : Type} {l : List β} {f : β → β} (h : ∀ x ∈ l, f x = x) :
    l.map f = l := by
  induction l with
  | nil => rfl
  | cons a tl ih =>
      rw [List.map_cons, h a (List.mem_cons_self a tl),
          ih (fun x hx => h x (List.mem_cons_of_mem a hx))]

theorem relink_restores (live : List (LiveRow α)) (pend : List (VRow α)) :
    ∀ done : List (VRow α),
      ((done ++ pend).map (·.vid)).Nodup →
      (∀ r ∈ pend, ∃ o, r.original_id = some o ∧
        ∃ m, live.find? (fun l => l.id == o) = some m) →
      relink live (pend.map (fun r => (r.vid, r.original_id)))
          (done ++ pend.map (fun r => { r with original_id := none }))
        = .ok (done ++ pend) := by
  induction pend with
  | nil =>
      intro done _ _
      simp [relink]
  | cons r rest ih =>
      intro done hnodup hres
      obtain ⟨o, ho, m, hm⟩ := hres r (List.mem_cons_self r rest)
      have hmid : m.id = o := by
        have h1 := List.find?_some hm
        simpa using h1
      have hnodup' : ((done.map (·.vid)) ++ (r.vid :: rest.map (·.vid))).Nodup := by
        simpa [List.map_append] using hnodup
      obtain ⟨hnd, hnc, hdisj⟩ := List.nodup_append.mp hnodup'
      have hrdone : ∀ x ∈ done, x.vid ≠ r.vid := by
        intro x hx heq
        exact hdisj (List.mem_map_of_mem _ hx)
          (by rw [heq]; exact List.mem_cons_self _ _)
      have hrrest : ∀ x ∈ rest, x.vid ≠ r.vid := by
        intro x hx heq
        exact (List.nodup_cons.mp hnc).1 (heq ▸ List.mem_map_of_mem (·.vid) hx)
      rw [List.map_cons, List.map_cons]
      simp only [relink, ho, hm]
      have h3 : ∀ y ∈ rest.map (fun x => ({ x with original_id := none } : VRow α)),
          (if y.vid = r.vid then { y with original_id := some m.id } else y) = y := by
        intro y hy
        obtain ⟨x, hx, rfl⟩ := List.mem_map.mp hy
        exact if_neg (hrrest x hx)
      have h2 : (if ({ r with original_id := none } : VRow α).vid = r.vid
          then { ({ r with original_id := none } : VRow α) with
                 original_id := some m.id }
          else ({ r with original_id := none } : VRow α)) = r := by
        rw [if_pos rfl, hmid, ← ho]
      have hupd : (done ++ { r with original_id := none }
            :: rest.map (fun x : VRow α => { x with original_id := none })).map
          (fun r' : VRow α =>
            if r'.vid = r.vid then { r' with original_id := some m.id } else r')
          = (done ++ [r])
            ++ rest.map (fun x : VRow α => { x with original_id := none }) := by
        rw [List.map_append, List.map_cons,
            map_id_of_mem (fun x hx => if_neg (hrdone x hx)), h2, map_id_of_mem h3,
            List.append_cons]
      rw [hupd]
      rw [ih (done ++ [r])
        (by rw [← List.append_cons]; exact hnodup)
        (fun x hx => hres x (List.mem_cons_of_mem r hx))]
      rw [← List.append_cons]

/-- C9: `_rename_table` renames the shadow table to the new live name plus
the version suffix and preserves every snapshot's weak reference across
the rename: with distinct snapshot `_id`s and every saved
`_original_record_id` resolving to a live row, the choreography succeeds,
the table pair carries the new names (the old names no longer exist), the
live rows are untouched, and the shadow rows — keys, re-resolved
references and field values — are exactly as before, so every record still
resolves the same snapshots with unchanged fields. -/
theorem C9_rename_table_preserves_snapshots (db : MigDB α) (newName : String)
    (hIds : (db.shadow.map (·.vid)).Nodup)
    (hRef : db.shadow.all (fun r =>
      match r.original_id with
      | none => false
      | some o => (db.live.find? (fun l => l.id == o)).isSome) = true) :
    ∃ db', renameTableChoreo db newName = .ok db' ∧
      db'.liveName = newName ∧
      db'.shadowName = versionTableName newName ∧
      db'.live = db.live ∧
      db'.shadow = db.shadow ∧
      ∀ k, db'.shadow.filter (fun r => r.original_id == some k)
          = db.shadow.filter (fun r => r.original_id == some k) := by
  have hres : ∀ r ∈ db.shadow, ∃ o, r.original_id = some o ∧
      ∃ m, db.live.find? (fun l => l.id == o) = some m := by
    intro r hr
    have h1 := List.all_eq_true.mp hRef r hr
    cases hoid : r.original_id with
    | none => simp [hoid] at h1
    | some o =>
        simp only [hoid] at h1
        exact ⟨o, rfl, Option.isSome_iff_exists.mp h1⟩
  have hkey := relink_restores db.live db.shadow [] (by simpa using hIds) hres
  have hkey2 : relink db.live (db.shadow.map (fun r => (r.vid, r.original_id)))
      (dropOriginalColumn db.shadow) = .ok db.shadow := by
    simpa [dropOriginalColumn] using hkey
  have hdef : renameTableChoreo db newName
      = (relink db.live (db.shadow.map (fun r => (r.vid, r.original_id)))
          (dropOriginalColumn db.shadow)).map
        (fun sh => { liveName := newName, shadowName := versionTableName newName,
                     live := db.live, shadow := sh }) := rfl
  refine ⟨{ liveName := newName, shadowName := versionTableName newName,
            live := db.live, shadow := db.shadow }, ?_, rfl, rfl, rfl, rfl,
          fun k => rfl⟩
  rw [hdef, hkey2]
  rfl

theorem C9_rename_table_preserves_snapshots_witness :
    ∃ db', renameTableChoreo foodDB "chow" = .ok db' ∧
      db'.liveName = "chow" ∧
      db'.shadowName = versionTableName "chow" ∧
      db'.live = foodDB.live ∧
      db'.shadow = foodDB.shadow ∧
      ∀ k, db'.shadow.filter (fun r => r.original_id == some k)
          = foodDB.shadow.filter (fun r => r.original_id == some k) :=
  C9_rename_table_preserves_snapshots foodDB "chow" (by decide) (by decide)

/-- C10: snapshots are never themselves versioned. `MetaModel.__new__`
masks the nested class's `_VersionModel` attribute to `None`, so
`_is_version_model` is true for the nested class and false for the user
class; and `save()`/`delete_instance()` on a `VersionModel` instance take
the plain-model branch: an unsaved snapshot is only INSERTed (all prior
snapshots untouched), a persisted snapshot is only UPDATEd in place (no
row added, every other snapshot untouched), and deletion removes only the
snapshot itself — no further snapshot is created, closed, or deleted. -/
theorem C10_no_versions_of_versions (n : String) (snap : Snapshot α) (st : RecState α) :
    ((mkVersionedClass n)._is_version_model = false ∧
      ∃ vm, (mkVersionedClass n)._get_version_model = some vm ∧
        vm._get_version_model = none ∧
        vm._is_version_model = true ∧
        vm.className = n ++ "Version") ∧
    (snap.snap_id = 0 →
      (versionInstanceSave snap st).2.versions
        = st.versions ++ [(versionInstanceSave snap st).1] ∧
      ∀ s ∈ st.versions, s ∈ (versionInstanceSave snap st).2.versions) ∧
    (snap.snap_id ≠ 0 →
      (versionInstanceSave snap st).2.versions.length = st.versions.length ∧
      ∀ s ∈ st.versions, s.snap_id ≠ snap.snap_id →
        s ∈ (versionInstanceSave snap st).2.versions) ∧
    ((versionInstanceDelete snap st).versions.length ≤ st.versions.length ∧
      ∀ s ∈ st.versions,
        (s ∈ (versionInstanceDelete snap st).versions ↔ s.snap_id ≠ snap.snap_id)) := by
  refine ⟨⟨rfl, MClass.mk (n ++ "Version") none, rfl, rfl, rfl, rfl⟩, ?_, ?_, ?_⟩
  · intro h0
    unfold versionInstanceSave
    rw [if_pos h0]
    refine ⟨rfl, ?_⟩
    intro s hs
    exact List.mem_append_left _ hs
  · intro h0
    unfold versionInstanceSave
    rw [if_neg h0]
    constructor
    · show (st.versions.map _).length = st.versions.length
      exact List.length_map _ _
    · intro s hs hne
      show s ∈ st.versions.map
        (fun s' => if s'.snap_id = snap.snap_id then snap else s')
      refine List.mem_map.mpr ⟨s, hs, ?_⟩
      rw [if_neg hne]
  · constructor
    · show (st.versions.filter _).length ≤ _
      exact List.length_filter_le _ _
    · intro s hs
      constructor
      · intro hmem
        have h1 := (List.mem_filter.mp hmem).2
        simpa using h1
      · intro hne
        exact List.mem_filter.mpr ⟨hs, by simpa using hne⟩

theorem C10_no_versions_of_versions_witness :
    (versionInstanceSave snapUnsaved oneSavedRecord).2.versions
      = oneSavedRecord.versions
        ++ [(versionInstanceSave snapUnsaved oneSavedRecord).1] ∧
    (versionInstanceSave snapClosed oneSavedRecord).2.versions.length
      = oneSavedRecord.versions.length ∧
    (mkVersionedClass "Person")._is_version_model = false :=
  ⟨((C10_no_versions_of_versions "Person" snapUnsaved oneSavedRecord).2.1 (by rfl)).1,
   ((C10_no_versions_of_versions "Person" snapClosed oneSavedRecord).2.2.1
     (by decide)).1,
   (C10_no_versions_of_versions "Person" snapClosed oneSavedRecord).1.1⟩

end PeeweeVersioned
